import Mathlib

set_option maxRecDepth 10000

/-
Shallow embedding of `src/migrate_assets.py`, a single-pass script that
turns a flat directory of image files into an Xcode-style asset catalog:
it destructively resets the destination directory, writes a root
`Contents.json`, then for each direct child of the source whose lowercased
name ends with one of `.png`, `.jpg`, `.jpeg` it creates a
`<basename>.imageset` directory, copies the file into it (content and
metadata preserved, as `shutil.copy2` does), and writes a per-image
`Contents.json` descriptor.  All JSON is written with Python's
`json.dump(..., indent=2)`.

The filesystem is modelled as association lists of named entries; the
order of an association list models the order `os.listdir` happens to
return.  A run is a pure function from the initial source listing, the
initial destination state and the timestamp metadata of newly written
files to a `RunOutcome` recording the final source state, the final
destination state, the first uncaught error (if any) and whether the
final success message was printed.  String operations are modelled over
character lists, faithful to Python semantics on ASCII input.
-/

namespace MigrateAssets

/-! ### Python `json.dump(obj, f, indent=2)` -/

/-- The JSON values this script serialises: strings, non-negative
integers, arrays and objects with ordered fields. -/
inductive Json where
  | str (s : String)
  | num (n : Nat)
  | arr (xs : List Json)
  | obj (fields : List (String × Json))
deriving Repr

/-- Hexadecimal digit character, lowercase, as CPython's `json` emits. -/
def hexDigitChar (n : Nat) : Char :=
  if n < 10 then Char.ofNat (48 + n) else Char.ofNat (87 + n)

/-- Four-digit lowercase hexadecimal rendering used by `\u` escapes. -/
def hex4 (n : Nat) : String :=
  String.mk [hexDigitChar (n / 4096 % 16), hexDigitChar (n / 256 % 16),
    hexDigitChar (n / 16 % 16), hexDigitChar (n % 16)]

/-- Escape of one character inside a JSON string literal, following
CPython's `json.dump` with its default `ensure_ascii=True`. -/
def pyJsonEscapeChar (c : Char) : String :=
  if c = '"' then "\\\""
  else if c = '\\' then "\\\\"
  else if c = '\n' then "\\n"
  else if c = '\t' then "\\t"
  else if c = '\r' then "\\r"
  else if c.toNat = 8 then "\\b"
  else if c.toNat = 12 then "\\f"
  else if c.toNat < 32 then "\\u" ++ hex4 c.toNat
  else if c.toNat < 127 then String.mk [c]
  else if c.toNat < 65536 then "\\u" ++ hex4 c.toNat
  else
    "\\u" ++ hex4 (55296 + (c.toNat - 65536) / 1024) ++
      "\\u" ++ hex4 (56320 + (c.toNat - 65536) % 1024)

/-- A JSON string literal with quotes and escapes. -/
def pyJsonQuote (s : String) : String :=
  "\"" ++ String.join (s.data.map pyJsonEscapeChar) ++ "\""

/-- `2 * lvl` spaces: the indentation prefix at nesting level `lvl`
for `indent=2`. -/
def indentStr (lvl : Nat) : String :=
  String.mk (List.replicate (2 * lvl) ' ')

mutual

/-- Rendering of a JSON value at nesting level `lvl`, exactly as
CPython's `json.dump(obj, f, indent=2)` lays it out (item separator
`,`, key separator `: `, each item on its own line). -/
def renderJson : Json → Nat → String
  | Json.str s, _ => pyJsonQuote s
  | Json.num n, _ => Nat.repr n
  | Json.arr [], _ => "[]"
  | Json.arr (x :: xs), lvl =>
      "[\n" ++ renderItems (x :: xs) (lvl + 1) ++ "\n" ++ indentStr lvl ++ "]"
  | Json.obj [], _ => "\x7b\x7d"
  | Json.obj (f :: fs), lvl =>
      "\x7b\n" ++ renderFields (f :: fs) (lvl + 1) ++ "\n" ++ indentStr lvl ++ "\x7d"

/-- Array items, one per line, comma separated. -/
def renderItems : List Json → Nat → String
  | [], _ => ""
  | [x], lvl => indentStr lvl ++ renderJson x lvl
  | x :: y :: xs, lvl =>
      indentStr lvl ++ renderJson x lvl ++ ",\n" ++ renderItems (y :: xs) lvl

/-- Object fields, one per line, comma separated, `: ` after each key. -/
def renderFields : List (String × Json) → Nat → String
  | [], _ => ""
  | [f], lvl => indentStr lvl ++ pyJsonQuote f.1 ++ ": " ++ renderJson f.2 lvl
  | f :: g :: fs, lvl =>
      indentStr lvl ++ pyJsonQuote f.1 ++ ": " ++ renderJson f.2 lvl ++ ",\n" ++
        renderFields (g :: fs) lvl

end

/-! ### Python string operations used by the script, on ASCII input -/

/-- `str.lower`: lowercase every character (`Char.toLower` agrees with
Python on the ASCII range, the only range the script's claims exercise). -/
def pyLower (s : String) : String :=
  String.mk (s.data.map Char.toLower)

/-- `str.endswith(suffix)`: the characters of `suffix` are a suffix of
the characters of `s`. -/
def pyEndsWith (s suffix : String) : Bool :=
  List.isSuffixOf suffix.data s.data

/-- Index of the last `.` in a character list, if any. -/
def lastDotIdx : List Char → Option Nat
  | [] => none
  | c :: rest =>
    match lastDotIdx rest with
    | some i => some (i + 1)
    | none => if c = '.' then some 0 else none

/-- `os.path.splitext(name)[0]` for a bare filename (no path
separator): split at the last dot, except that a dot preceded only by
dots is part of the name, so all-leading-dot names such as `.png` keep
their full name. -/
def name_without_ext (name : String) : String :=
  match lastDotIdx name.data with
  | none => name
  | some d =>
    if (name.data.take d).all (fun c => c = '.') then name
    else String.mk (name.data.take d)

/-! ### Filesystem model -/

/-- The metadata `shutil.copy2` preserves (modification time,
permission bits), abstracted as two numbers. -/
structure FileMeta where
  mtime : Nat
  mode : Nat
deriving Repr, DecidableEq

/-- A directory entry: a regular file with opaque content and metadata,
or a directory with an ordered list of named children. -/
inductive Entry where
  | file (content : String) (meta : FileMeta)
  | dir (children : List (String × Entry))
deriving Repr

/-- Name resolution in a directory listing: first entry with the given
name, as the filesystem resolves a path component. -/
def lookupEntry : List (String × Entry) → String → Option Entry
  | [], _ => none
  | (nm, e) :: rest, k => if nm = k then some e else lookupEntry rest k

/-- Whether an optional entry is a regular file. -/
def entryIsFile : Option Entry → Bool
  | some (Entry.file _ _) => true
  | _ => false

/-! ### The script itself -/

/-- Line 21, the filter: `f.lower().endswith(('.png', '.jpg', '.jpeg'))`. -/
def selected (f : String) : Bool :=
  [(".png"), (".jpg"), (".jpeg")].any fun s => pyEndsWith (pyLower f) s

/-- Lines 24-25: `os.path.splitext(filename)[0] + ".imageset"`. -/
def containerName (filename : String) : String :=
  name_without_ext filename ++ (".imageset")

/-- Lines 14-19: the root descriptor object. -/
def rootJson : Json :=
  Json.obj [(("info"),
    Json.obj [(("author"), Json.str ("xcode")), (("version"), Json.num 1)])]

/-- Lines 33-53: the per-image descriptor object; only the 1x variant
carries a `filename` field. -/
def imageJson (filename : String) : Json :=
  Json.obj [
    (("images"), Json.arr [
      Json.obj [(("filename"), Json.str filename),
        (("idiom"), Json.str ("universal")), (("scale"), Json.str ("1x"))],
      Json.obj [(("idiom"), Json.str ("universal")), (("scale"), Json.str ("2x"))],
      Json.obj [(("idiom"), Json.str ("universal")), (("scale"), Json.str ("3x"))]]),
    (("info"),
      Json.obj [(("author"), Json.str ("xcode")), (("version"), Json.num 1)])]

/-- The root `Contents.json` entry written at line 13, with the
metadata `now` of a freshly created file. -/
def rootEntry (now : FileMeta) : String × Entry :=
  ((("Contents.json")), Entry.file (renderJson rootJson 0) now)

/-- The first uncaught exception of a run, by the Python exception that
raises it: `shutil.rmtree` on a regular file, `os.listdir` on a missing
or non-directory source, `os.makedirs` on an existing path,
`shutil.copy2` from a directory, `shutil.copy2` from a vanished path. -/
inductive RunError where
  | notADirectory
  | sourceNotFound
  | fileExists (name : String)
  | isADirectory (name : String)
  | copySourceMissing
deriving Repr, DecidableEq

/-- The observable outcome of a run: source listing afterwards (`none`
when the source was never enumerable), destination state afterwards
(`none` when missing), first uncaught error, and whether line 55 printed
the completion message. -/
structure RunOutcome where
  source : Option (List (String × Entry))
  dest : Option Entry
  err : Option RunError
  printed : Bool
deriving Repr

/-- Lines 23-53, the per-file loop, processing the selected filenames in
listing order while growing the destination listing `d`: create the
container directory (`os.makedirs`, failing if the name already exists),
copy the source child (`shutil.copy2`, failing if it is a directory),
then write the image descriptor. -/
def processFiles (src : List (String × Entry)) (now : FileMeta) :
    List String → List (String × Entry) → RunOutcome
  | [], d => ⟨some src, some (Entry.dir d), none, true⟩
  | nm :: rest, d =>
    let cn := containerName nm
    if (d.map Prod.fst).contains cn then
      ⟨some src, some (Entry.dir d), some (RunError.fileExists cn), false⟩
    else
      match lookupEntry src nm with
      | some (Entry.file c m) =>
          processFiles src now rest (d ++
            [(cn, Entry.dir [(nm, Entry.file c m),
              ((("Contents.json")),
                Entry.file (renderJson (imageJson nm) 0) now)])])
      | some (Entry.dir _) =>
          ⟨some src, some (Entry.dir (d ++ [(cn, Entry.dir [])])),
            some (RunError.isADirectory nm), false⟩
      | none =>
          ⟨some src, some (Entry.dir (d ++ [(cn, Entry.dir [])])),
            some RunError.copySourceMissing, false⟩

/-- The whole script (lines 8-55).  `source` is the listing of the
source directory (`none` when `os.listdir` would fail because the path
is missing or not a directory), `dest0` the prior state of the
destination path, `now` the metadata given to newly written files.
Lines 8-10 reset the destination — `shutil.rmtree` raises
`NotADirectoryError` when the destination is a regular file — then line
13 writes the root descriptor, line 21 enumerates and filters the
source, and the loop processes each selected name. -/
def run (source : Option (List (String × Entry))) (dest0 : Option Entry)
    (now : FileMeta) : RunOutcome :=
  match dest0 with
  | some (Entry.file c m) =>
      ⟨source, some (Entry.file c m), some RunError.notADirectory, false⟩
  | _ =>
    match source with
    | none => ⟨none, some (Entry.dir [rootEntry now]), some RunError.sourceNotFound, false⟩
    | some src =>
        processFiles src now ((src.map Prod.fst).filter selected) [rootEntry now]

/-- The container entry the loop builds for a selected filename `nm`,
resolved against the source listing. -/
def containerFor (src : List (String × Entry)) (now : FileMeta) (nm : String) :
    String × Entry :=
  (containerName nm,
    match lookupEntry src nm with
    | some (Entry.file c m) =>
        Entry.dir [(nm, Entry.file c m),
          ((("Contents.json")), Entry.file (renderJson (imageJson nm) 0) now)]
    | _ => Entry.dir [])

/-- The full destination listing of a successful run: the root
descriptor followed by one container per selected source name, in
listing order. -/
def catalog (src : List (String × Entry)) (now : FileMeta) :
    List (String × Entry) :=
  rootEntry now :: ((src.map Prod.fst).filter selected).map (containerFor src now)

/-! ### Content projection (file contents and tree shape, metadata erased) -/

/-- A filesystem tree with metadata erased: what "same destination tree
content" compares. -/
inductive Tree where
  | file (content : String)
  | dir (children : List (String × Tree))
deriving Repr

mutual

/-- Content projection of an entry. -/
def entryTree : Entry → Tree
  | Entry.file c _ => Tree.file c
  | Entry.dir ch => Tree.dir (entriesTree ch)

/-- Content projection of a listing. -/
def entriesTree : List (String × Entry) → List (String × Tree)
  | [] => []
  | (nm, e) :: rest => (nm, entryTree e) :: entriesTree rest

end

/-- Content projection of an optional destination state. -/
def destTree : Option Entry → Option Tree
  | none => none
  | some e => some (entryTree e)


/-! ### Helper lemmas -/

theorem data_imageset_split :
    (("Contents.json") : String).data =
      (("Cont") : String).data ++ (("ents.json") : String).data := by decide

/-- No container name collides with the root descriptor's filename:
every container name ends in `.imageset`, which `Contents.json` does
not. -/
theorem containerName_ne_contentsJson (s : String) :
    containerName s ≠ ("Contents.json") := by
  intro h
  have h1 : (name_without_ext s).data ++ ((".imageset") : String).data =
      (("Cont") : String).data ++ (("ents.json") : String).data := by
    have h0 := congrArg String.data h
    simp only [containerName, String.data_append] at h0
    exact h0.trans data_imageset_split
  have h2 := (List.append_inj' h1 (by decide)).2
  exact absurd h2 (by decide)

theorem entryIsFile_iff (e : Option Entry) :
    entryIsFile e = true ↔ ∃ c m, e = some (Entry.file c m) := by
  cases e with
  | none => simp [entryIsFile]
  | some e' => cases e' <;> simp [entryIsFile]

/-- Name resolution succeeds for every name produced by the directory
listing. -/
theorem lookupEntry_of_mem (src : List (String × Entry)) (nm : String)
    (h : nm ∈ src.map Prod.fst) :
    ∃ e, lookupEntry src nm = some e ∧ (nm, e) ∈ src := by
  induction src with
  | nil => simp at h
  | cons p rest ih =>
    rcases p with ⟨nm', e'⟩
    by_cases hnm : nm' = nm
    · subst hnm
      exact ⟨e', by simp [lookupEntry], by simp⟩
    · rw [List.map_cons] at h
      rcases List.mem_cons.mp h with h1 | h1
      · exact absurd h1.symm hnm
      · rcases ih h1 with ⟨e, he, hm⟩
        exact ⟨e, by simpa [lookupEntry, hnm] using he, List.mem_cons_of_mem _ hm⟩

/-- With pairwise-distinct names, name resolution finds exactly the
listed entry. -/
theorem lookupEntry_nodup (src : List (String × Entry)) (nm : String) (e : Entry)
    (hnd : (src.map Prod.fst).Nodup) (h : (nm, e) ∈ src) :
    lookupEntry src nm = some e := by
  induction src with
  | nil => simp at h
  | cons p rest ih =>
    rcases p with ⟨nm', e'⟩
    have hnd' := hnd
    rw [List.map_cons, List.nodup_cons] at hnd'
    rcases List.mem_cons.mp h with h1 | h1
    · rcases Prod.mk.injEq .. ▸ h1 with ⟨h2, h3⟩
      subst h2
      simp [lookupEntry, h3]
    · have hnm : nm' ≠ nm := by
        intro hq
        subst hq
        exact hnd'.1 (List.mem_map.mpr ⟨(nm', e), h1, rfl⟩)
      simp only [lookupEntry, if_neg hnm]
      exact ih hnd'.2 h1

/-- The final source state is always the input source state: no step of
the run writes under the source directory. -/
theorem processFiles_source_eq (src : List (String × Entry)) (now : FileMeta)
    (files : List String) : ∀ d, (processFiles src now files d).source = some src := by
  induction files with
  | nil => intro d; rfl
  | cons nm rest ih =>
    intro d
    simp only [processFiles]
    split
    · rfl
    · split
      · exact ih _
      · rfl
      · rfl

/-- The run never touches the source: its final source state is its
initial one, whatever the outcome. -/
theorem run_source_eq (s0 : Option (List (String × Entry))) (d0 : Option Entry)
    (n0 : FileMeta) : (run s0 d0 n0).source = s0 := by
  rcases d0 with _ | e
  · rcases s0 with _ | src
    · rfl
    · exact processFiles_source_eq src n0 _ _
  · cases e with
    | file c m => rfl
    | dir ch =>
      rcases s0 with _ | src
      · rfl
      · exact processFiles_source_eq src n0 _ _

/-- Step equation: colliding container name, `os.makedirs` fails. -/
theorem processFiles_cons_dup (src : List (String × Entry)) (now : FileMeta)
    (nm : String) (rest : List String) (d : List (String × Entry))
    (hc : containerName nm ∈ d.map Prod.fst) :
    processFiles src now (nm :: rest) d =
      ⟨some src, some (Entry.dir d),
        some (RunError.fileExists (containerName nm)), false⟩ := by
  have hcb : ((d.map Prod.fst).contains (containerName nm)) = true := by simpa using hc
  simp only [processFiles]
  rw [if_pos hcb]

/-- Step equation: fresh container name, source child is a regular
file; the container is created with the copy and the descriptor. -/
theorem processFiles_cons_file (src : List (String × Entry)) (now : FileMeta)
    (nm : String) (rest : List String) (d : List (String × Entry))
    (c : String) (m : FileMeta)
    (hc : containerName nm ∉ d.map Prod.fst)
    (hl : lookupEntry src nm = some (Entry.file c m)) :
    processFiles src now (nm :: rest) d =
      processFiles src now rest (d ++ [(containerName nm,
        Entry.dir [(nm, Entry.file c m),
          ((("Contents.json")), Entry.file (renderJson (imageJson nm) 0) now)])]) := by
  have hcb : ((d.map Prod.fst).contains (containerName nm)) = false := by simpa using hc
  simp only [processFiles]
  rw [if_neg (by rw [hcb]; simp), hl]

/-- Step equation: fresh container name, source child is a directory;
the empty container is created, then `shutil.copy2` fails. -/
theorem processFiles_cons_dir (src : List (String × Entry)) (now : FileMeta)
    (nm : String) (rest : List String) (d : List (String × Entry))
    (ch : List (String × Entry))
    (hc : containerName nm ∉ d.map Prod.fst)
    (hl : lookupEntry src nm = some (Entry.dir ch)) :
    processFiles src now (nm :: rest) d =
      ⟨some src, some (Entry.dir (d ++ [(containerName nm, Entry.dir [])])),
        some (RunError.isADirectory nm), false⟩ := by
  have hcb : ((d.map Prod.fst).contains (containerName nm)) = false := by simpa using hc
  simp only [processFiles]
  rw [if_neg (by rw [hcb]; simp), hl]

/-- `containerFor` at a name resolving to a regular file. -/
theorem containerFor_file (src : List (String × Entry)) (now : FileMeta)
    (nm : String) (c : String) (m : FileMeta)
    (hl : lookupEntry src nm = some (Entry.file c m)) :
    containerFor src now nm = (containerName nm,
      Entry.dir [(nm, Entry.file c m),
        ((("Contents.json")), Entry.file (renderJson (imageJson nm) 0) now)]) := by
  simp [containerFor, hl]

/-- When every selected name resolves to a regular file and the
container names are fresh and pairwise distinct, the loop succeeds and
appends exactly one container per name, in order. -/
theorem processFiles_success (src : List (String × Entry)) (now : FileMeta)
    (files : List String) :
    ∀ d : List (String × Entry),
    (∀ nm ∈ files, entryIsFile (lookupEntry src nm) = true) →
    (files.map containerName).Nodup →
    (∀ nm ∈ files, containerName nm ∉ d.map Prod.fst) →
    processFiles src now files d =
      ⟨some src, some (Entry.dir (d ++ files.map (containerFor src now))),
        none, true⟩ := by
  induction files with
  | nil => intro d _ _ _; simp [processFiles]
  | cons nm rest ih =>
    intro d h1 h2 h3
    rcases (entryIsFile_iff _).mp (h1 nm (List.mem_cons_self nm rest)) with ⟨c, m, hl⟩
    have hfresh : containerName nm ∉ d.map Prod.fst :=
      h3 nm (List.mem_cons_self nm rest)
    rw [List.map_cons, List.nodup_cons] at h2
    rw [processFiles_cons_file src now nm rest d c m hfresh hl]
    rw [ih (d ++ [(containerName nm,
        Entry.dir [(nm, Entry.file c m),
          ((("Contents.json")), Entry.file (renderJson (imageJson nm) 0) now)])])
      (fun nm' h => h1 nm' (List.mem_cons_of_mem nm h))
      h2.2
      ?fresh]
    · rw [List.append_assoc, List.singleton_append, List.map_cons,
        containerFor_file src now nm c m hl]
    case fresh =>
      intro nm' h
      rw [List.map_append]
      intro hmem
      rcases List.mem_append.mp hmem with hmem | hmem
      · exact h3 nm' (List.mem_cons_of_mem nm h) hmem
      · have : containerName nm' = containerName nm := by simpa using hmem
        exact h2.1 (this ▸ List.mem_map_of_mem containerName h)

/-- The whole run on an enumerable source and a non-file destination,
when every selected name is a regular file and no two selected names
share a container basename: the destination becomes exactly the
catalog. -/
theorem run_success (src : List (String × Entry)) (dest0 : Option Entry)
    (now : FileMeta)
    (hd : entryIsFile dest0 = false)
    (hf : ∀ nm ∈ (src.map Prod.fst).filter selected,
      entryIsFile (lookupEntry src nm) = true)
    (hn : (((src.map Prod.fst).filter selected).map containerName).Nodup) :
    run (some src) dest0 now =
      ⟨some src, some (Entry.dir (catalog src now)), none, true⟩ := by
  have hroot : ∀ nm ∈ (src.map Prod.fst).filter selected,
      containerName nm ∉ ([rootEntry now].map Prod.fst) := by
    intro nm _
    simpa [rootEntry] using containerName_ne_contentsJson nm
  have hbody := processFiles_success src now ((src.map Prod.fst).filter selected)
    [rootEntry now] hf hn hroot
  rcases dest0 with _ | e
  · simpa [run, catalog] using hbody
  · cases e with
    | file c m => simp [entryIsFile] at hd
    | dir ch => simpa [run, catalog] using hbody

/-- Whatever happens, the loop leaves the destination a directory. -/
theorem processFiles_dest_dir (src : List (String × Entry)) (now : FileMeta)
    (files : List String) :
    ∀ d, ∃ d2, (processFiles src now files d).dest = some (Entry.dir d2) := by
  induction files with
  | nil => intro d; exact ⟨d, rfl⟩
  | cons nm rest ih =>
    intro d
    simp only [processFiles]
    split
    · exact ⟨d, rfl⟩
    · split
      · exact ih _
      · exact ⟨_, rfl⟩
      · exact ⟨_, rfl⟩

theorem entriesTree_append (l1 l2 : List (String × Entry)) :
    entriesTree (l1 ++ l2) = entriesTree l1 ++ entriesTree l2 := by
  induction l1 with
  | nil => simp [entriesTree]
  | cons p rest ih =>
    rcases p with ⟨nm, e⟩
    simp [entriesTree, ih]

/-- The loop's observable outcome — error, completion message, and the
content of the destination tree — does not depend on the metadata
stamped on freshly written files, nor on anything about the starting
destination listing beyond its names and content. -/
theorem processFiles_congr (src : List (String × Entry)) (now now' : FileMeta)
    (files : List String) :
    ∀ d d', d.map Prod.fst = d'.map Prod.fst → entriesTree d = entriesTree d' →
    (processFiles src now files d).err = (processFiles src now' files d').err ∧
    (processFiles src now files d).printed = (processFiles src now' files d').printed ∧
    destTree (processFiles src now files d).dest =
      destTree (processFiles src now' files d').dest := by
  induction files with
  | nil =>
    intro d d' h1 h2
    exact ⟨rfl, rfl, by simp [processFiles, destTree, entryTree, h2]⟩
  | cons nm rest ih =>
    intro d d' h1 h2
    by_cases hc : containerName nm ∈ d.map Prod.fst
    · have hc' : containerName nm ∈ d'.map Prod.fst := h1 ▸ hc
      rw [processFiles_cons_dup src now nm rest d hc,
        processFiles_cons_dup src now' nm rest d' hc']
      exact ⟨rfl, rfl, by simp [destTree, entryTree, h2]⟩
    · have hc' : containerName nm ∉ d'.map Prod.fst := h1 ▸ hc
      rcases hl : lookupEntry src nm with _ | e
      · simp only [processFiles]
        rw [if_neg (by rw [show ((d.map Prod.fst).contains (containerName nm)) = false
              from by simpa using hc]; simp),
          if_neg (by rw [show ((d'.map Prod.fst).contains (containerName nm)) = false
              from by simpa using hc']; simp), hl]
        exact ⟨rfl, rfl, by
          simp [destTree, entryTree, entriesTree_append, entriesTree, h2]⟩
      · cases e with
        | file c m =>
          rw [processFiles_cons_file src now nm rest d c m hc hl,
            processFiles_cons_file src now' nm rest d' c m hc' hl]
          apply ih
          · rw [List.map_append, List.map_append, h1]
            simp
          · rw [entriesTree_append, entriesTree_append, h2]
            simp [entriesTree, entryTree]
        | dir ch =>
          rw [processFiles_cons_dir src now nm rest d ch hc hl,
            processFiles_cons_dir src now' nm rest d' ch hc' hl]
          exact ⟨rfl, rfl, by
            simp [destTree, entryTree, entriesTree_append, entriesTree, h2]⟩

/-- The run on a non-file destination proceeds exactly as if the
destination had not existed: lines 8-10 wipe it before anything is
read or written. -/
theorem run_indep_dest (source : Option (List (String × Entry)))
    (dest0 : Option Entry) (now : FileMeta)
    (hd : entryIsFile dest0 = false) :
    run source dest0 now = run source none now := by
  rcases dest0 with _ | e
  · rfl
  · cases e with
    | file c m => simp [entryIsFile] at hd
    | dir ch => rfl

/-- When every name resolves to a regular file but the accumulated
container names are not pairwise fresh, the loop stops at the first
repeated container with the `os.makedirs` failure and never prints the
completion message. -/
theorem processFiles_collision (src : List (String × Entry)) (now : FileMeta)
    (files : List String) :
    ∀ d : List (String × Entry),
    (∀ nm ∈ files, entryIsFile (lookupEntry src nm) = true) →
    (d.map Prod.fst).Nodup →
    ¬ (d.map Prod.fst ++ files.map containerName).Nodup →
    ∃ cn, (processFiles src now files d).err = some (RunError.fileExists cn) ∧
      (processFiles src now files d).printed = false := by
  induction files with
  | nil =>
    intro d _ hdn hnd
    rw [List.map_nil, List.append_nil] at hnd
    exact absurd hdn hnd
  | cons nm rest ih =>
    intro d h1 hdn hnd
    by_cases hc : containerName nm ∈ d.map Prod.fst
    · rw [processFiles_cons_dup src now nm rest d hc]
      exact ⟨containerName nm, rfl, rfl⟩
    · rcases (entryIsFile_iff _).mp (h1 nm (List.mem_cons_self nm rest)) with ⟨c, m, hl⟩
      rw [processFiles_cons_file src now nm rest d c m hc hl]
      apply ih
      · exact fun nm' h => h1 nm' (List.mem_cons_of_mem nm h)
      · rw [List.map_append]
        rw [List.nodup_append]
        exact ⟨hdn, List.nodup_singleton _, by simpa using hc⟩
      · rw [List.map_append]
        rw [List.append_assoc]
        simpa using hnd

/-- The root descriptor as `json.dump(..., indent=2)` lays it out. -/
theorem rootRendered : renderJson rootJson 0 =
    ("\x7b\n  \"info\": \x7b\n    \"author\": \"xcode\",\n    \"version\": 1\n  \x7d\n\x7d") := by
  decide

/-! ### The claims -/

/-- C1: for every run whose source contains only regular image files
with pairwise-distinct names and pairwise-distinct container basenames,
the run completes and the destination directory holds exactly one root
descriptor named `Contents.json`, whose content is the fixed info
record pretty-printed with a 2-space indent, followed by exactly one
image container per source image, in listing order, and nothing else. -/
theorem C1_full_catalog (src : List (String × Entry)) (dest0 : Option Entry)
    (now : FileMeta)
    (hd : entryIsFile dest0 = false)
    (hfiles : ∀ p ∈ src, entryIsFile (some p.2) = true)
    (himg : ∀ p ∈ src, selected p.1 = true)
    (_hnm : (src.map Prod.fst).Nodup)
    (hbase : ((src.map Prod.fst).map containerName).Nodup) :
    run (some src) dest0 now =
      ⟨some src,
       some (Entry.dir
         (((("Contents.json")), Entry.file
             ("\x7b\n  \"info\": \x7b\n    \"author\": \"xcode\",\n    \"version\": 1\n  \x7d\n\x7d") now)
           :: (src.map Prod.fst).map (containerFor src now))),
       none, true⟩ := by
  have hsel : (src.map Prod.fst).filter selected = src.map Prod.fst := by
    apply List.filter_eq_self.mpr
    intro nm h
    rcases List.mem_map.mp h with ⟨p, hp, rfl⟩
    exact himg p hp
  have hf : ∀ nm ∈ (src.map Prod.fst).filter selected,
      entryIsFile (lookupEntry src nm) = true := by
    intro nm h
    rw [hsel] at h
    rcases lookupEntry_of_mem src nm h with ⟨e, he, hm⟩
    rw [he]
    exact hfiles (nm, e) hm
  have hn : (((src.map Prod.fst).filter selected).map containerName).Nodup := by
    rw [hsel]; exact hbase
  rw [run_success src dest0 now hd hf hn]
  simp [catalog, hsel, rootEntry, rootRendered]

/-- C1 witness: a one-image source produces the two-entry catalog. -/
theorem C1_witness :
    run (some [(("icon.png"), Entry.file ("IMG") ⟨1, 2⟩)]) none ⟨0, 0⟩ =
      ⟨some [(("icon.png"), Entry.file ("IMG") ⟨1, 2⟩)],
       some (Entry.dir
         (((("Contents.json")), Entry.file
             ("\x7b\n  \"info\": \x7b\n    \"author\": \"xcode\",\n    \"version\": 1\n  \x7d\n\x7d") ⟨0, 0⟩)
           :: ([(("icon.png"), Entry.file ("IMG") ⟨1, 2⟩)].map Prod.fst).map
                (containerFor [(("icon.png"), Entry.file ("IMG") ⟨1, 2⟩)] ⟨0, 0⟩))),
       none, true⟩ :=
  C1_full_catalog [(("icon.png"), Entry.file ("IMG") ⟨1, 2⟩)] none ⟨0, 0⟩
    rfl (by decide) (by decide) (by decide) (by decide)

/-- C2 counterexample: when the source is not enumerable the run does
fail with the source-not-found error, but by that moment the root
descriptor has already been written into the freshly reset destination,
which is therefore not the bare empty directory that step 2 leaves —
refuting the claim that no descriptor files have been written. -/
theorem C2_cex :
    (run none none ⟨0, 0⟩).err = some RunError.sourceNotFound ∧
    (run none none ⟨0, 0⟩).dest =
      some (Entry.dir [((("Contents.json")),
        Entry.file (renderJson rootJson 0) ⟨0, 0⟩)]) ∧
    [((("Contents.json")), Entry.file (renderJson rootJson 0) ⟨0, 0⟩)] ≠
      ([] : List (String × Entry)) :=
  ⟨rfl, rfl, by simp⟩

/-- C2 (amended): if the source path is not enumerable as a directory
and the destination reset succeeded, the run fails with the
source-not-found error, and at that moment the writes performed are the
destination reset together with the root descriptor at
`<destination>/Contents.json` — no image containers exist yet and no
completion message is printed. -/
theorem C2_amended_root_written (dest0 : Option Entry) (now : FileMeta)
    (hd : entryIsFile dest0 = false) :
    run none dest0 now =
      ⟨none, some (Entry.dir [rootEntry now]),
        some RunError.sourceNotFound, false⟩ := by
  rcases dest0 with _ | e
  · rfl
  · cases e with
    | file c m => simp [entryIsFile] at hd
    | dir ch => rfl

/-- C2 witness: the amended statement at a missing destination. -/
theorem C2_witness :
    run none none ⟨0, 0⟩ =
      ⟨none, some (Entry.dir [rootEntry ⟨0, 0⟩]),
        some RunError.sourceNotFound, false⟩ :=
  C2_amended_root_written none ⟨0, 0⟩ rfl

/-- C3 counterexample: a destination that exists as a regular file is
not removed and recreated — `shutil.rmtree` raises `NotADirectoryError`
and the run aborts with the file left in place, refuting "whether as a
file or as a directory ... unconditionally and without error". -/
theorem C3_cex :
    run (some []) (some (Entry.file ("stale") ⟨3, 4⟩)) ⟨0, 0⟩ =
      ⟨some [], some (Entry.file ("stale") ⟨3, 4⟩),
        some RunError.notADirectory, false⟩ :=
  rfl

/-- C3 (amended): if the destination exists as a directory (or does not
exist), it is removed entirely and recreated fresh, so the run proceeds
exactly as if the destination had never existed; but if the destination
exists as a regular file, the run fails with `NotADirectoryError` and
the file is left unchanged. -/
theorem C3_amended_reset :
    (∀ (source : Option (List (String × Entry))) (dest0 : Option Entry)
        (now : FileMeta), entryIsFile dest0 = false →
        run source dest0 now = run source none now) ∧
    (∀ (source : Option (List (String × Entry))) (c : String) (m : FileMeta)
        (now : FileMeta),
        run source (some (Entry.file c m)) now =
          ⟨source, some (Entry.file c m), some RunError.notADirectory, false⟩) :=
  ⟨fun source dest0 now hd => run_indep_dest source dest0 now hd,
   fun _ _ _ _ => rfl⟩

/-- C3 witness: a pre-existing destination directory is wiped (the run
equals the run from nothing), and a pre-existing destination file makes
the run fail leaving the file. -/
theorem C3_witness :
    run (some []) (some (Entry.dir [(("old"), Entry.file ("junk") ⟨9, 9⟩)])) ⟨0, 0⟩ =
      run (some []) none ⟨0, 0⟩ ∧
    run (some []) (some (Entry.file ("f") ⟨1, 1⟩)) ⟨0, 0⟩ =
      ⟨some [], some (Entry.file ("f") ⟨1, 1⟩), some RunError.notADirectory, false⟩ :=
  ⟨C3_amended_reset.1 (some []) (some (Entry.dir [(("old"), Entry.file ("junk") ⟨9, 9⟩)])) ⟨0, 0⟩ rfl,
   C3_amended_reset.2 (some []) ("f") ⟨1, 1⟩ ⟨0, 0⟩⟩

/-- C4 counterexample: a direct subdirectory named `sub.png` is not
ignored — its name passes the suffix filter, an (empty) container
directory `sub.imageset` is created for it, and the run then aborts
with the `shutil.copy2` error instead of completing. -/
theorem C4_cex :
    run (some [(("sub.png"), Entry.dir [])]) none ⟨0, 0⟩ =
      ⟨some [(("sub.png"), Entry.dir [])],
       some (Entry.dir [rootEntry ⟨0, 0⟩, (("sub.imageset"), Entry.dir [])]),
       some (RunError.isADirectory ("sub.png")), false⟩ ∧
    (run (some [(("sub.png"), Entry.dir [])]) none ⟨0, 0⟩).err ≠ none :=
  ⟨rfl, by decide⟩

/-- C4 (amended): a direct subdirectory of the source whose name does
not end in an allow-listed suffix is ignored — it is never selected and
the run succeeds with exactly one container per selected name, drawn
only from the selected names; but a subdirectory whose name does end in
an allow-listed suffix is selected like any other name: the run creates
its container directory, then fails at the copy step with
`IsADirectoryError`, aborting the whole run. -/
theorem C4_amended_subdirs :
    (∀ (src : List (String × Entry)) (dest0 : Option Entry) (now : FileMeta),
        entryIsFile dest0 = false →
        (∀ nm ∈ (src.map Prod.fst).filter selected,
          entryIsFile (lookupEntry src nm) = true) →
        (((src.map Prod.fst).filter selected).map containerName).Nodup →
        run (some src) dest0 now =
          ⟨some src, some (Entry.dir (catalog src now)), none, true⟩) ∧
    (∀ (nm : String) (ch : List (String × Entry)) (now : FileMeta),
        selected nm = true →
        run (some [(nm, Entry.dir ch)]) none now =
          ⟨some [(nm, Entry.dir ch)],
           some (Entry.dir [rootEntry now, (containerName nm, Entry.dir [])]),
           some (RunError.isADirectory nm), false⟩) := by
  constructor
  · exact fun src dest0 now hd hf hn => run_success src dest0 now hd hf hn
  · intro nm ch now hsel
    have hcont : containerName nm ∉ ([rootEntry now].map Prod.fst) := by
      simpa [rootEntry] using containerName_ne_contentsJson nm
    have hlk : lookupEntry [(nm, Entry.dir ch)] nm = some (Entry.dir ch) := by
      simp [lookupEntry]
    have hfil : (([(nm, Entry.dir ch)]).map Prod.fst).filter selected = [nm] := by
      simp [hsel]
    show processFiles [(nm, Entry.dir ch)] now
        ((([(nm, Entry.dir ch)]).map Prod.fst).filter selected) [rootEntry now] = _
    rw [hfil, processFiles_cons_dir [(nm, Entry.dir ch)] now nm [] [rootEntry now] ch hcont hlk]
    simp

/-- C4 witness: a non-matching subdirectory (`docs`) beside an image is
ignored and the run succeeds; a matching subdirectory fails the run. -/
theorem C4_witness :
    run (some [(("docs"), Entry.dir []), (("icon.png"), Entry.file ("A") ⟨1, 1⟩)]) none ⟨0, 0⟩ =
      ⟨some [(("docs"), Entry.dir []), (("icon.png"), Entry.file ("A") ⟨1, 1⟩)],
       some (Entry.dir (catalog
         [(("docs"), Entry.dir []), (("icon.png"), Entry.file ("A") ⟨1, 1⟩)] ⟨0, 0⟩)),
       none, true⟩ ∧
    run (some [(("shot.jpg"), Entry.dir [])]) none ⟨0, 0⟩ =
      ⟨some [(("shot.jpg"), Entry.dir [])],
       some (Entry.dir [rootEntry ⟨0, 0⟩, (containerName ("shot.jpg"), Entry.dir [])]),
       some (RunError.isADirectory ("shot.jpg")), false⟩ :=
  ⟨C4_amended_subdirs.1 [(("docs"), Entry.dir []), (("icon.png"), Entry.file ("A") ⟨1, 1⟩)]
      none ⟨0, 0⟩ rfl (by decide) (by decide),
   C4_amended_subdirs.2 ("shot.jpg") [] ⟨0, 0⟩ (by decide)⟩

/-- C5: in every successful run, each selected regular source file `nm`
yields a container whose `Contents.json` holds exactly three variant
entries — the 1x entry with `filename` equal to the source filename,
`idiom` universal and `scale` 1x, and the 2x and 3x entries carrying
only `idiom` and `scale` with no `filename` field — plus the fixed info
record, serialised with the 2-space pretty-printer. -/
theorem C5_image_descriptor (src : List (String × Entry)) (dest0 : Option Entry)
    (now : FileMeta) (nm c : String) (m : FileMeta)
    (hd : entryIsFile dest0 = false)
    (hf : ∀ nm' ∈ (src.map Prod.fst).filter selected,
      entryIsFile (lookupEntry src nm') = true)
    (hn : (((src.map Prod.fst).filter selected).map containerName).Nodup)
    (hnames : (src.map Prod.fst).Nodup)
    (hmem : (nm, Entry.file c m) ∈ src)
    (hsel : selected nm = true) :
    ∃ d, (run (some src) dest0 now).dest = some (Entry.dir d) ∧
      (containerName nm, Entry.dir [(nm, Entry.file c m),
        ((("Contents.json")), Entry.file (renderJson (Json.obj [
          (("images"), Json.arr [
            Json.obj [(("filename"), Json.str nm),
              (("idiom"), Json.str ("universal")), (("scale"), Json.str ("1x"))],
            Json.obj [(("idiom"), Json.str ("universal")), (("scale"), Json.str ("2x"))],
            Json.obj [(("idiom"), Json.str ("universal")), (("scale"), Json.str ("3x"))]]),
          (("info"), Json.obj [(("author"), Json.str ("xcode")),
            (("version"), Json.num 1)])]) 0) now)]) ∈ d := by
  rw [run_success src dest0 now hd hf hn]
  refine ⟨catalog src now, rfl, ?_⟩
  have hlk : lookupEntry src nm = some (Entry.file c m) :=
    lookupEntry_nodup src nm _ hnames hmem
  have hmm : nm ∈ (src.map Prod.fst).filter selected :=
    List.mem_filter.mpr ⟨List.mem_map.mpr ⟨(nm, Entry.file c m), hmem, rfl⟩, hsel⟩
  have hin : containerFor src now nm ∈
      ((src.map Prod.fst).filter selected).map (containerFor src now) :=
    List.mem_map_of_mem _ hmm
  rw [containerFor_file src now nm c m hlk] at hin
  exact List.mem_cons_of_mem _ hin

/-- C5 witness: the descriptor of `icon.png` in a one-image run. -/
theorem C5_witness :
    ∃ d, (run (some [(("icon.png"), Entry.file ("IMG") ⟨1, 2⟩)]) none ⟨0, 0⟩).dest =
        some (Entry.dir d) ∧
      (containerName ("icon.png"), Entry.dir [(("icon.png"), Entry.file ("IMG") ⟨1, 2⟩),
        ((("Contents.json")), Entry.file (renderJson (Json.obj [
          (("images"), Json.arr [
            Json.obj [(("filename"), Json.str ("icon.png")),
              (("idiom"), Json.str ("universal")), (("scale"), Json.str ("1x"))],
            Json.obj [(("idiom"), Json.str ("universal")), (("scale"), Json.str ("2x"))],
            Json.obj [(("idiom"), Json.str ("universal")), (("scale"), Json.str ("3x"))]]),
          (("info"), Json.obj [(("author"), Json.str ("xcode")),
            (("version"), Json.num 1)])]) 0) ⟨0, 0⟩)]) ∈ d :=
  C5_image_descriptor [(("icon.png"), Entry.file ("IMG") ⟨1, 2⟩)] none ⟨0, 0⟩
    ("icon.png") ("IMG") ⟨1, 2⟩ rfl (by decide) (by decide) (by decide)
    (by simp) (by decide)

/-- C6: whenever the selected source files (all regular files) contain
two names mapping to the same container basename — such as `logo.png`
and `logo.jpg` — the run fails with the `os.makedirs` already-exists
error on that repeated container and aborts without printing the
completion message. -/
theorem C6_duplicate_basename (src : List (String × Entry)) (dest0 : Option Entry)
    (now : FileMeta)
    (hd : entryIsFile dest0 = false)
    (hfiles : ∀ p ∈ src, entryIsFile (some p.2) = true)
    (hcoll : ¬ (((src.map Prod.fst).filter selected).map containerName).Nodup) :
    ∃ cn, (run (some src) dest0 now).err = some (RunError.fileExists cn) ∧
      (run (some src) dest0 now).printed = false := by
  have h1 : ∀ nm ∈ (src.map Prod.fst).filter selected,
      entryIsFile (lookupEntry src nm) = true := by
    intro nm h
    rcases lookupEntry_of_mem src nm (List.mem_of_mem_filter h) with ⟨e, he, hm⟩
    rw [he]
    exact hfiles (nm, e) hm
  have hroot : (([rootEntry now]).map Prod.fst).Nodup := by simp
  have hnd : ¬ ((([rootEntry now]).map Prod.fst) ++
      ((src.map Prod.fst).filter selected).map containerName).Nodup := by
    intro h
    exact hcoll (List.nodup_append.mp h).2.1
  have hcore := processFiles_collision src now ((src.map Prod.fst).filter selected)
    [rootEntry now] h1 hroot hnd
  rcases dest0 with _ | e
  · exact hcore
  · cases e with
    | file c m => simp [entryIsFile] at hd
    | dir ch => exact hcore

/-- C6 witness: `logo.png` and `logo.jpg` collide on `logo.imageset`. -/
theorem C6_witness :
    ∃ cn, (run (some [(("logo.png"), Entry.file ("P") ⟨1, 1⟩),
        (("logo.jpg"), Entry.file ("J") ⟨2, 2⟩)]) none ⟨0, 0⟩).err =
        some (RunError.fileExists cn) ∧
      (run (some [(("logo.png"), Entry.file ("P") ⟨1, 1⟩),
        (("logo.jpg"), Entry.file ("J") ⟨2, 2⟩)]) none ⟨0, 0⟩).printed = false :=
  C6_duplicate_basename [(("logo.png"), Entry.file ("P") ⟨1, 1⟩),
    (("logo.jpg"), Entry.file ("J") ⟨2, 2⟩)] none ⟨0, 0⟩ rfl (by decide) (by decide)

/-- C7: a source name is selected exactly when its lowercased form ends
with `.png`, `.jpg` or `.jpeg` — so `Photo.PNG` and `photo.png` are both
selected while `readme.txt` and `anim.gif` are not — and in every
successful run each destination entry is either the root descriptor or
the container of a selected name, so non-matching files are never
copied and produce no container. -/
theorem C7_suffix_filter :
    (∀ nm : String, selected nm = true ↔
      (pyEndsWith (pyLower nm) (".png") = true ∨
        pyEndsWith (pyLower nm) (".jpg") = true ∨
        pyEndsWith (pyLower nm) (".jpeg") = true)) ∧
    selected ("Photo.PNG") = true ∧
    selected ("photo.png") = true ∧
    selected ("readme.txt") = false ∧
    selected ("anim.gif") = false ∧
    (∀ (src : List (String × Entry)) (dest0 : Option Entry) (now : FileMeta),
        entryIsFile dest0 = false →
        (∀ nm ∈ (src.map Prod.fst).filter selected,
          entryIsFile (lookupEntry src nm) = true) →
        (((src.map Prod.fst).filter selected).map containerName).Nodup →
        (run (some src) dest0 now).err = none ∧
        ∃ d, (run (some src) dest0 now).dest = some (Entry.dir d) ∧
          ∀ p ∈ d, p.1 = ("Contents.json") ∨
            ∃ nm, nm ∈ src.map Prod.fst ∧ selected nm = true ∧
              p = containerFor src now nm) := by
  refine ⟨?_, by decide, by decide, by decide, by decide, ?_⟩
  · intro nm
    simp [selected, List.any_cons, List.any_nil, Bool.or_eq_true]
  · intro src dest0 now hd hf hn
    rw [run_success src dest0 now hd hf hn]
    refine ⟨rfl, catalog src now, rfl, ?_⟩
    intro p hp
    rcases List.mem_cons.mp hp with h | h
    · left
      rw [h]
      rfl
    · right
      rcases List.mem_map.mp h with ⟨nm, hm, rfl⟩
      rcases List.mem_filter.mp hm with ⟨hmem, hsel⟩
      exact ⟨nm, hmem, hsel, rfl⟩

/-- C7 witness: the filter at `Photo.PNG`, and a run containing a
non-image file that yields only the root descriptor and the one
container of the selected image. -/
theorem C7_witness :
    (selected ("Photo.PNG") = true ↔
      (pyEndsWith (pyLower ("Photo.PNG")) (".png") = true ∨
        pyEndsWith (pyLower ("Photo.PNG")) (".jpg") = true ∨
        pyEndsWith (pyLower ("Photo.PNG")) (".jpeg") = true)) ∧
    ((run (some [(("Photo.PNG"), Entry.file ("P") ⟨1, 1⟩),
        (("readme.txt"), Entry.file ("T") ⟨2, 2⟩)]) none ⟨0, 0⟩).err = none ∧
      ∃ d, (run (some [(("Photo.PNG"), Entry.file ("P") ⟨1, 1⟩),
          (("readme.txt"), Entry.file ("T") ⟨2, 2⟩)]) none ⟨0, 0⟩).dest =
          some (Entry.dir d) ∧
        ∀ p ∈ d, p.1 = ("Contents.json") ∨
          ∃ nm, nm ∈ ([(("Photo.PNG"), Entry.file ("P") ⟨1, 1⟩),
              (("readme.txt"), Entry.file ("T") ⟨2, 2⟩)]).map Prod.fst ∧
            selected nm = true ∧
            p = containerFor [(("Photo.PNG"), Entry.file ("P") ⟨1, 1⟩),
              (("readme.txt"), Entry.file ("T") ⟨2, 2⟩)] ⟨0, 0⟩ nm) :=
  ⟨C7_suffix_filter.1 ("Photo.PNG"),
   C7_suffix_filter.2.2.2.2.2 [(("Photo.PNG"), Entry.file ("P") ⟨1, 1⟩),
     (("readme.txt"), Entry.file ("T") ⟨2, 2⟩)] none ⟨0, 0⟩ rfl
     (by decide) (by decide)⟩

/-- C8: the run never writes under the source directory — its final
source state always equals its initial one — and in every successful
run each selected regular source file is copied into its container with
content and metadata identical to the source entry, the source entry
itself remaining listed unchanged. -/
theorem C8_copy_preserves (src : List (String × Entry)) (dest0 : Option Entry)
    (now : FileMeta) (nm c : String) (m : FileMeta)
    (hd : entryIsFile dest0 = false)
    (hf : ∀ nm' ∈ (src.map Prod.fst).filter selected,
      entryIsFile (lookupEntry src nm') = true)
    (hn : (((src.map Prod.fst).filter selected).map containerName).Nodup)
    (hnames : (src.map Prod.fst).Nodup)
    (hmem : (nm, Entry.file c m) ∈ src)
    (hsel : selected nm = true) :
    (∀ (s0 : Option (List (String × Entry))) (d0 : Option Entry) (n0 : FileMeta),
      (run s0 d0 n0).source = s0) ∧
    (run (some src) dest0 now).source = some src ∧
    ∃ d, (run (some src) dest0 now).dest = some (Entry.dir d) ∧
      (containerName nm, Entry.dir [(nm, Entry.file c m),
        ((("Contents.json")), Entry.file (renderJson (imageJson nm) 0) now)]) ∈ d := by
  refine ⟨run_source_eq, run_source_eq _ _ _, ?_⟩
  rw [run_success src dest0 now hd hf hn]
  refine ⟨catalog src now, rfl, ?_⟩
  have hlk : lookupEntry src nm = some (Entry.file c m) :=
    lookupEntry_nodup src nm _ hnames hmem
  have hmm : nm ∈ (src.map Prod.fst).filter selected :=
    List.mem_filter.mpr ⟨List.mem_map.mpr ⟨(nm, Entry.file c m), hmem, rfl⟩, hsel⟩
  have hin : containerFor src now nm ∈
      ((src.map Prod.fst).filter selected).map (containerFor src now) :=
    List.mem_map_of_mem _ hmm
  rw [containerFor_file src now nm c m hlk] at hin
  exact List.mem_cons_of_mem _ hin

/-- C8 witness: the copy of `pic.jpg` keeps content `DATA` and
metadata `(7, 8)` exactly. -/
theorem C8_witness :
    (run (some [(("pic.jpg"), Entry.file ("DATA") ⟨7, 8⟩)]) none ⟨0, 0⟩).source =
      some [(("pic.jpg"), Entry.file ("DATA") ⟨7, 8⟩)] ∧
    ∃ d, (run (some [(("pic.jpg"), Entry.file ("DATA") ⟨7, 8⟩)]) none ⟨0, 0⟩).dest =
        some (Entry.dir d) ∧
      (containerName ("pic.jpg"), Entry.dir [(("pic.jpg"), Entry.file ("DATA") ⟨7, 8⟩),
        ((("Contents.json")),
          Entry.file (renderJson (imageJson ("pic.jpg")) 0) ⟨0, 0⟩)]) ∈ d :=
  (C8_copy_preserves [(("pic.jpg"), Entry.file ("DATA") ⟨7, 8⟩)] none ⟨0, 0⟩
    ("pic.jpg") ("DATA") ⟨7, 8⟩ rfl (by decide) (by decide) (by decide)
    (by simp) (by decide)).2

/-- C9: re-running the builder on the same source is
destination-idempotent in content — if the first run succeeds, a second
run over the destination it left behind succeeds and produces the same
content tree — while each run is destructive: a pre-existing
destination directory is wiped, never merged, so the run proceeds
exactly as if it had not existed. -/
theorem C9_idempotent_content :
    (∀ (source : Option (List (String × Entry))) (dest0 : Option Entry)
        (now now' : FileMeta),
        (run source dest0 now).err = none →
        (run source (run source dest0 now).dest now').err = none ∧
        destTree (run source (run source dest0 now).dest now').dest =
          destTree (run source dest0 now).dest) ∧
    (∀ (source : Option (List (String × Entry))) (ch : List (String × Entry))
        (now : FileMeta),
        run source (some (Entry.dir ch)) now = run source none now) := by
  constructor
  · intro source dest0 now now' herr
    have hd : entryIsFile dest0 = false := by
      rcases dest0 with _ | e
      · rfl
      · cases e with
        | file c m => simp [run] at herr
        | dir ch => rfl
    rw [run_indep_dest source dest0 now hd] at herr ⊢
    rcases source with _ | src
    · simp [run] at herr
    · have hrun1 : run (some src) none now =
          processFiles src now ((src.map Prod.fst).filter selected) [rootEntry now] := rfl
      rcases processFiles_dest_dir src now ((src.map Prod.fst).filter selected)
        [rootEntry now] with ⟨d2, hdest⟩
      have hd2 : entryIsFile (processFiles src now
          ((src.map Prod.fst).filter selected) [rootEntry now]).dest = false := by
        rw [hdest]
        rfl
      have hrun2 : run (some src) (processFiles src now
            ((src.map Prod.fst).filter selected) [rootEntry now]).dest now' =
          processFiles src now' ((src.map Prod.fst).filter selected) [rootEntry now'] := by
        rw [run_indep_dest _ _ _ hd2]
        rfl
      have hcong := processFiles_congr src now' now
        ((src.map Prod.fst).filter selected) [rootEntry now'] [rootEntry now]
        rfl (by simp [entriesTree, rootEntry, entryTree])
      rw [hrun1] at herr ⊢
      rw [hrun2]
      exact ⟨hcong.1.trans herr, hcong.2.2⟩
  · intro source ch now
    exact run_indep_dest source (some (Entry.dir ch)) now rfl

/-- C9 witness: a second run over the first run's output reproduces the
same content tree, and a junk-filled prior destination is wiped. -/
theorem C9_witness :
    ((run (some [(("icon.png"), Entry.file ("A") ⟨1, 1⟩)])
        (run (some [(("icon.png"), Entry.file ("A") ⟨1, 1⟩)]) none ⟨0, 0⟩).dest
        ⟨5, 5⟩).err = none ∧
      destTree (run (some [(("icon.png"), Entry.file ("A") ⟨1, 1⟩)])
        (run (some [(("icon.png"), Entry.file ("A") ⟨1, 1⟩)]) none ⟨0, 0⟩).dest
        ⟨5, 5⟩).dest =
        destTree (run (some [(("icon.png"), Entry.file ("A") ⟨1, 1⟩)]) none ⟨0, 0⟩).dest) ∧
    run (some []) (some (Entry.dir [(("x"), Entry.file ("y") ⟨7, 7⟩)])) ⟨0, 0⟩ =
      run (some []) none ⟨0, 0⟩ :=
  ⟨C9_idempotent_content.1 (some [(("icon.png"), Entry.file ("A") ⟨1, 1⟩)])
      none ⟨0, 0⟩ ⟨5, 5⟩ rfl,
   C9_idempotent_content.2 (some []) [(("x"), Entry.file ("y") ⟨7, 7⟩)] ⟨0, 0⟩⟩

/-- C10: a source file named exactly `.png` passes the suffix filter,
`os.path.splitext` strips nothing from it (the leading dot makes the
whole name the root), so its container is `.png.imageset`, the copy
keeps the name `.png`, and the descriptor's 1x `filename` is `.png`. -/
theorem C10_dotfile_png (c : String) (m now : FileMeta) :
    selected (".png") = true ∧
    name_without_ext (".png") = (".png") ∧
    containerName (".png") = (".png.imageset") ∧
    imageJson (".png") = Json.obj [
      (("images"), Json.arr [
        Json.obj [(("filename"), Json.str (".png")),
          (("idiom"), Json.str ("universal")), (("scale"), Json.str ("1x"))],
        Json.obj [(("idiom"), Json.str ("universal")), (("scale"), Json.str ("2x"))],
        Json.obj [(("idiom"), Json.str ("universal")), (("scale"), Json.str ("3x"))]]),
      (("info"), Json.obj [(("author"), Json.str ("xcode")),
        (("version"), Json.num 1)])] ∧
    run (some [((".png"), Entry.file c m)]) none now =
      ⟨some [((".png"), Entry.file c m)],
       some (Entry.dir [rootEntry now,
         ((".png.imageset"), Entry.dir [((".png"), Entry.file c m),
           ((("Contents.json")),
             Entry.file (renderJson (imageJson (".png")) 0) now)])]),
       none, true⟩ :=
  ⟨by decide, by decide, by decide, rfl, rfl⟩

end MigrateAssets
